import Mathlib

/-!
# ByteHebi — verification of the snake game core

Shallow embedding of the game core of the ByteHebi repository:
`Snake` (src/source/snake.cpp), `Fruit` (src/source/fruit.cpp and the
header holding `Fruit::respawn`), and the two `Game` variants — the
richer Notcurses one (src/source/game.cpp, reward 10, high score) and
the simpler console one (the second document in src/source/snake.cpp,
reward 1, no high score).

The C++ `std::mt19937` random source is modelled as an explicit stream
`samp : Nat → Nat × Nat` of raw draws; `uniform_int_distribution(1, w-2)`
is modelled as mapping a raw draw into the interval by remainder, which
preserves exactly what the proofs need: every candidate lies in the
interval, and the stream is otherwise arbitrary.
-/

set_option autoImplicit false

namespace ByteHebi

/-- Grid cell, from point.h: integer `(x, y)` pair, equality component-wise. -/
structure Point where
  x : Int
  y : Int
deriving DecidableEq

instance : Inhabited Point := ⟨⟨0, 0⟩⟩

/-- The four headings, from snake.h. -/
inductive Direction
  | Up
  | Down
  | Left
  | Right
deriving DecidableEq

/-- Snake state, from snake.h: ordered body (head first) and current heading. -/
structure Snake where
  body : List Point
  dir : Direction
deriving DecidableEq

/-- `Snake::Snake(startX, startY, initialLength)`: head at start, extended
to the left, heading Right. -/
def Snake.init (startX startY : Int) (initialLength : Nat) : Snake :=
  { body := (List.range initialLength).map (fun i => ⟨startX - i, startY⟩),
    dir := Direction.Right }

/-- `Snake::setDirection`: ignore a request that directly reverses the
current heading, otherwise adopt it. -/
def Snake.setDirection (s : Snake) (d : Direction) : Snake :=
  if (s.dir = Direction.Up ∧ d = Direction.Down) ∨
     (s.dir = Direction.Down ∧ d = Direction.Up) ∨
     (s.dir = Direction.Left ∧ d = Direction.Right) ∨
     (s.dir = Direction.Right ∧ d = Direction.Left) then
    s
  else
    { s with dir := d }

/-- `body.front()` — the head cell. -/
def Snake.front (s : Snake) : Point := s.body.headI

/-- `Snake::nextHead`: the head displaced one step in the current heading. -/
def Snake.nextHead (s : Snake) : Point :=
  match s.dir with
  | Direction.Up => { s.front with y := s.front.y - 1 }
  | Direction.Down => { s.front with y := s.front.y + 1 }
  | Direction.Left => { s.front with x := s.front.x - 1 }
  | Direction.Right => { s.front with x := s.front.x + 1 }

/-- `Snake::hitsSelf`: does the candidate equal any existing body segment. -/
def Snake.hitsSelf (s : Snake) (next : Point) : Bool :=
  s.body.any (fun p => decide (p = next))

/-- `Snake::contains`: general occupancy test over the body. -/
def Snake.contains (s : Snake) (p : Point) : Bool :=
  s.body.any (fun seg => decide (seg = p))

/-- `Snake::move(grow)`: push the next head at the front; drop the tail
unless growing. -/
def Snake.move (s : Snake) (grow : Bool) : Snake :=
  { s with body :=
      if grow then s.nextHead :: s.body else (s.nextHead :: s.body).dropLast }

/-- Fruit state, from the fruit header: board bounds and current position
(the RNG lives outside the embedding, as the sample stream). -/
structure Fruit where
  width : Int
  height : Int
  pos : Point
deriving DecidableEq

/-- `Fruit::Fruit(width, height)`: stores the bounds and seeds the RNG;
the position keeps its in-class initializer `{0, 0}`. -/
def Fruit.init (w h : Int) : Fruit :=
  { width := w, height := h, pos := ⟨0, 0⟩ }

/-- The i-th sampled candidate: `uniform_int_distribution(1, w-2)` and
`(1, h-2)` applied to the i-th raw draws of the stream. -/
def sampleCand (w h : Int) (samp : Nat → Nat × Nat) (i : Nat) : Point :=
  ⟨1 + (((samp i).1 % (w - 2).toNat : Nat) : Int),
   1 + (((samp i).2 % (h - 2).toNat : Nat) : Int)⟩

/-- The retry loop of `Fruit::respawn`: try candidates while fuel lasts,
accept the first unoccupied one, fall back to `(1,1)` on exhaustion. -/
def respawnLoop (occ : Point → Bool) (w h : Int) (samp : Nat → Nat × Nat) :
    Nat → Nat → Point
  | _, 0 => ⟨1, 1⟩
  | i, fuel + 1 =>
    if occ (sampleCand w h samp i) then respawnLoop occ w h samp (i + 1) fuel
    else sampleCand w h samp i

/-- `Fruit::respawn(isOccupied)`: up to 1000 attempts, then the fixed
fallback cell. -/
def Fruit.respawn (f : Fruit) (occ : Point → Bool) (samp : Nat → Nat × Nat) :
    Fruit :=
  { f with pos := respawnLoop occ f.width f.height samp 0 1000 }

/-- Modal dialog kinds, from game.h. -/
inductive DialogType
  | None
  | Pause
  | GameOver
  | EnterName
deriving DecidableEq

/-- Session state of the richer (Notcurses) variant, from game.h. -/
structure Game where
  width : Int
  height : Int
  snake : Snake
  fruit : Fruit
  score : Int
  over : Bool
  exitRequested : Bool
  paused : Bool
  dialogOpen : Bool
  dialogType : DialogType
  dialogIndex : Int
  tickMs : Int
  highScore : Int
deriving DecidableEq

/-- `Game::openDialog(t)`. -/
def Game.openDialog (g : Game) (t : DialogType) : Game :=
  { g with dialogType := t, dialogOpen := true, dialogIndex := 0 }

/-- The boundary-collision guard shared verbatim by both `Game::update`
variants: `next.x <= 0 || next.x >= width-1 || next.y <= 0 || next.y >= height-1`. -/
def wallHit (w h : Int) (next : Point) : Bool :=
  decide (next.x ≤ 0 ∨ w - 1 ≤ next.x ∨ next.y ≤ 0 ∨ h - 1 ≤ next.y)

/-- `Game::update` of the richer variant (src/source/game.cpp): wall check,
self check, fruit check with reward 10 and high-score update, then commit.
The respawn predicate is the pre-move body plus the landing cell. -/
def Game.update (g : Game) (samp : Nat → Nat × Nat) : Game :=
  if wallHit g.width g.height g.snake.nextHead then
    ({ g with over := true }).openDialog DialogType.GameOver
  else if g.snake.hitsSelf g.snake.nextHead then
    ({ g with over := true }).openDialog DialogType.GameOver
  else if g.snake.nextHead = g.fruit.pos then
    { g with
      score := g.score + 10,
      highScore :=
        if g.score + 10 > g.highScore then g.score + 10 else g.highScore,
      fruit := g.fruit.respawn
        (fun p => g.snake.contains p || decide (p = g.snake.nextHead)) samp,
      snake := g.snake.move true }
  else
    { g with snake := g.snake.move false }

/-- `Game::reset` of the richer variant: zero the score, clear the flags
and the dialog, rebuild the snake and the fruit; the high score is kept. -/
def Game.reset (g : Game) (samp : Nat → Nat × Nat) : Game :=
  { g with
    score := 0, over := false, exitRequested := false,
    dialogOpen := false, dialogType := DialogType.None, dialogIndex := 0,
    paused := false,
    snake := Snake.init (g.width / 2) (g.height / 2) 3,
    fruit := (Fruit.init g.width g.height).respawn
      (fun p => (Snake.init (g.width / 2) (g.height / 2) 3).contains p) samp }

/-- `Game::Game(width, height, name)` of the richer variant: member init,
`loadHighScore` (modelled as the loaded value `hs0`), `chooseDifficulty`
(fixed 120 ms), then an immediate respawn excluding the fresh snake. -/
def Game.init (w h : Int) (hs0 : Int) (samp : Nat → Nat × Nat) : Game :=
  { width := w, height := h,
    snake := Snake.init (w / 2) (h / 2) 3,
    fruit := (Fruit.init w h).respawn
      (fun p => (Snake.init (w / 2) (h / 2) 3).contains p) samp,
    score := 0, over := false, exitRequested := false, paused := false,
    dialogOpen := false, dialogType := DialogType.None, dialogIndex := 0,
    tickMs := 120, highScore := hs0 }

/-- Session state of the simpler console variant (second document of
src/source/snake.cpp): no pause, no dialogs, no high score. -/
structure GameC where
  width : Int
  height : Int
  snake : Snake
  fruit : Fruit
  score : Int
  over : Bool
  exitRequested : Bool
deriving DecidableEq

/-- `Game::update` of the console variant: wall check, self check, then
commit the move; on a fruit hit, reward 1 and a respawn excluding the
already-moved snake. -/
def GameC.update (g : GameC) (samp : Nat → Nat × Nat) : GameC :=
  if wallHit g.width g.height g.snake.nextHead then
    { g with over := true }
  else if g.snake.hitsSelf g.snake.nextHead then
    { g with over := true }
  else if g.snake.nextHead = g.fruit.pos then
    { g with
      snake := g.snake.move true,
      score := g.score + 1,
      fruit := g.fruit.respawn (fun p => (g.snake.move true).contains p) samp }
  else
    { g with snake := g.snake.move false }

/-- One session-level operation of the richer variant, for sequences of
ticks and restarts. -/
inductive GOp
  | tick (samp : Nat → Nat × Nat)
  | restart (samp : Nat → Nat × Nat)

/-- Apply one operation to the session state. -/
def GOp.apply (g : Game) : GOp → Game
  | GOp.tick samp => g.update samp
  | GOp.restart samp => g.reset samp

/-! ## Helper lemmas -/

theorem Snake.contains_iff_mem (s : Snake) (p : Point) :
    s.contains p = true ↔ p ∈ s.body := by
  simp [Snake.contains, List.any_eq_true]

theorem Snake.hitsSelf_iff_mem (s : Snake) (p : Point) :
    s.hitsSelf p = true ↔ p ∈ s.body := by
  simp [Snake.hitsSelf, List.any_eq_true]

theorem Snake.nextHead_near_front (s : Snake) :
    (s.nextHead.x = s.front.x ∧
      (s.nextHead.y = s.front.y - 1 ∨ s.nextHead.y = s.front.y + 1)) ∨
    (s.nextHead.y = s.front.y ∧
      (s.nextHead.x = s.front.x - 1 ∨ s.nextHead.x = s.front.x + 1)) := by
  cases h : s.dir <;> simp [Snake.nextHead, h]

theorem Snake.contains_move_true (s : Snake) (p : Point) :
    (s.contains p || decide (p = s.nextHead)) = (s.move true).contains p := by
  simp only [Snake.contains, Snake.move, List.any_cons, Bool.or_comm]
  congr 1
  simp [eq_comm]

theorem sampleCand_interior (w h : Int) (samp : Nat → Nat × Nat) (i : Nat)
    (hw : 3 ≤ w) (hh : 3 ≤ h) :
    1 ≤ (sampleCand w h samp i).x ∧ (sampleCand w h samp i).x ≤ w - 2 ∧
    1 ≤ (sampleCand w h samp i).y ∧ (sampleCand w h samp i).y ≤ h - 2 := by
  have h1 : (samp i).1 % (w - 2).toNat < (w - 2).toNat :=
    Nat.mod_lt _ (by omega)
  have h2 : (samp i).2 % (h - 2).toNat < (h - 2).toNat :=
    Nat.mod_lt _ (by omega)
  simp only [sampleCand]
  omega

theorem respawnLoop_not_occ (occ : Point → Bool) (w h : Int)
    (samp : Nat → Nat × Nat) :
    ∀ (fuel i : Nat),
      (∃ j, j < fuel ∧ occ (sampleCand w h samp (i + j)) = false) →
      occ (respawnLoop occ w h samp i fuel) = false := by
  intro fuel
  induction fuel with
  | zero =>
    intro i hfree
    obtain ⟨j, hj, _⟩ := hfree
    omega
  | succ n ih =>
    intro i hfree
    obtain ⟨j, hj, hoccj⟩ := hfree
    by_cases hocc : occ (sampleCand w h samp i) = true
    · rw [respawnLoop, if_pos hocc]
      apply ih
      cases j with
      | zero =>
        rw [Nat.add_zero] at hoccj
        rw [hoccj] at hocc
        cases hocc
      | succ j2 =>
        refine ⟨j2, by omega, ?_⟩
        rw [show i + 1 + j2 = i + (j2 + 1) by omega]
        exact hoccj
    · rw [respawnLoop, if_neg hocc]
      exact Bool.eq_false_iff.mpr hocc

theorem respawnLoop_all_occ (occ : Point → Bool) (w h : Int)
    (samp : Nat → Nat × Nat) :
    ∀ (fuel i : Nat),
      (∀ j, j < fuel → occ (sampleCand w h samp (i + j)) = true) →
      respawnLoop occ w h samp i fuel = ⟨1, 1⟩ := by
  intro fuel
  induction fuel with
  | zero => intro i _; rfl
  | succ n ih =>
    intro i hall
    have h0 : occ (sampleCand w h samp i) = true := by
      have := hall 0 (by omega)
      rwa [Nat.add_zero] at this
    rw [respawnLoop, if_pos h0]
    apply ih
    intro j hj
    rw [show i + 1 + j = i + (j + 1) by omega]
    exact hall (j + 1) (by omega)

theorem respawnLoop_interior (occ : Point → Bool) (w h : Int)
    (samp : Nat → Nat × Nat) (hw : 3 ≤ w) (hh : 3 ≤ h) :
    ∀ (fuel i : Nat),
      1 ≤ (respawnLoop occ w h samp i fuel).x ∧
      (respawnLoop occ w h samp i fuel).x ≤ w - 2 ∧
      1 ≤ (respawnLoop occ w h samp i fuel).y ∧
      (respawnLoop occ w h samp i fuel).y ≤ h - 2 := by
  intro fuel
  induction fuel with
  | zero =>
    intro i
    simp only [respawnLoop]
    omega
  | succ n ih =>
    intro i
    by_cases hocc : occ (sampleCand w h samp i) = true
    · rw [respawnLoop, if_pos hocc]
      exact ih (i + 1)
    · rw [respawnLoop, if_neg hocc]
      exact sampleCand_interior w h samp i hw hh

theorem Game.update_highScore_le (g : Game) (samp : Nat → Nat × Nat) :
    g.highScore ≤ (g.update samp).highScore := by
  rw [Game.update]
  split
  · simp [Game.openDialog]
  · split
    · simp [Game.openDialog]
    · split
      · simp only
        split <;> omega
      · simp

theorem Game.reset_highScore_eq (g : Game) (samp : Nat → Nat × Nat) :
    (g.reset samp).highScore = g.highScore := rfl

theorem GOp.apply_highScore_le (g : Game) (op : GOp) :
    g.highScore ≤ (GOp.apply g op).highScore := by
  cases op with
  | tick samp => exact g.update_highScore_le samp
  | restart samp => exact le_of_eq (g.reset_highScore_eq samp).symm

theorem foldl_highScore_le :
    ∀ (ops : List GOp) (g : Game),
      g.highScore ≤ (List.foldl GOp.apply g ops).highScore := by
  intro ops
  induction ops with
  | nil => intro g; simp
  | cons op rest ih =>
    intro g
    calc g.highScore ≤ (GOp.apply g op).highScore := GOp.apply_highScore_le g op
      _ ≤ (List.foldl GOp.apply (GOp.apply g op) rest).highScore :=
        ih (GOp.apply g op)
      _ = (List.foldl GOp.apply g (op :: rest)).highScore := by
        rw [List.foldl_cons]

/-! ## Concrete states used by witnesses and counterexamples -/

/-- A raw-draw stream that keeps producing `(0, 0)`: every candidate on a
board is the cell `(1, 1)`. -/
def cexSamp : Nat → Nat × Nat := fun _ => (0, 0)

/-- Occupancy predicate holding exactly at `(1, 1)`. -/
def cexOcc : Point → Bool := fun p => decide (p = ⟨1, 1⟩)

/-- A raw-draw stream producing `(2, 2)` forever. -/
def freeSamp : Nat → Nat × Nat := fun _ => (2, 2)

/-- A length-3 snake heading Right whose body covers `(1, 1)`. -/
def cexSnake : Snake :=
  { body := [⟨2, 1⟩, ⟨1, 1⟩, ⟨1, 2⟩], dir := Direction.Right }

/-- 6×5 board; the snake is about to land on the fruit at `(3, 1)` while
its body covers `(1, 1)`, the fallback cell. -/
def cexGame : Game :=
  { width := 6, height := 5, snake := cexSnake,
    fruit := { width := 6, height := 5, pos := ⟨3, 1⟩ },
    score := 0, over := false, exitRequested := false, paused := false,
    dialogOpen := false, dialogType := DialogType.None, dialogIndex := 0,
    tickMs := 120, highScore := 0 }

/-- A snake one cell from the right wall of a 6-wide board, heading Right. -/
def wallSnake : Snake :=
  { body := [⟨4, 1⟩, ⟨3, 1⟩, ⟨2, 1⟩], dir := Direction.Right }

/-- 6×5 board; the next tick collides with the right wall. -/
def wallGame : Game :=
  { width := 6, height := 5, snake := wallSnake,
    fruit := { width := 6, height := 5, pos := ⟨3, 3⟩ },
    score := 0, over := false, exitRequested := false, paused := false,
    dialogOpen := false, dialogType := DialogType.None, dialogIndex := 0,
    tickMs := 120, highScore := 0 }

/-- Console-variant state mirroring `wallGame`. -/
def wallGameC : GameC :=
  { width := 6, height := 5, snake := wallSnake,
    fruit := { width := 6, height := 5, pos := ⟨3, 3⟩ },
    score := 0, over := false, exitRequested := false }

/-- A length-4 snake curled into a square: its next head is its own tail. -/
def loopSnake : Snake :=
  { body := [⟨1, 1⟩, ⟨2, 1⟩, ⟨2, 2⟩, ⟨1, 2⟩], dir := Direction.Down }

/-- 6×5 board around `loopSnake`; the next tick is a tail collision. -/
def loopGame : Game :=
  { width := 6, height := 5, snake := loopSnake,
    fruit := { width := 6, height := 5, pos := ⟨3, 3⟩ },
    score := 0, over := false, exitRequested := false, paused := false,
    dialogOpen := false, dialogType := DialogType.None, dialogIndex := 0,
    tickMs := 120, highScore := 0 }

/-- 6×5 board; the snake lands on the fruit at `(2, 3)` and the sample
stream immediately offers the free interior cell `(3, 3)`. -/
def fruitGame : Game :=
  { width := 6, height := 5,
    snake := { body := [⟨2, 2⟩, ⟨2, 1⟩, ⟨1, 1⟩], dir := Direction.Down },
    fruit := { width := 6, height := 5, pos := ⟨2, 3⟩ },
    score := 0, over := false, exitRequested := false, paused := false,
    dialogOpen := false, dialogType := DialogType.None, dialogIndex := 0,
    tickMs := 120, highScore := 0 }

/-! ## Claim theorems -/

/-- C4: for every snake with non-empty body, `move(grow=false)` preserves
the body length, `move(grow=true)` increases it by exactly 1, the new
front element equals the pre-move value of `nextHead()`, and `nextHead()`
returns the head displaced by exactly one cell in the current heading
(it is a pure function of the state in this embedding). -/
theorem snake_move_nextHead_spec (s : Snake) (hb : s.body ≠ []) :
    (s.move false).body.length = s.body.length ∧
    (s.move true).body.length = s.body.length + 1 ∧
    (∀ grow : Bool, (s.move grow).body.headI = s.nextHead) ∧
    (s.dir = Direction.Up → s.nextHead = ⟨s.front.x, s.front.y - 1⟩) ∧
    (s.dir = Direction.Down → s.nextHead = ⟨s.front.x, s.front.y + 1⟩) ∧
    (s.dir = Direction.Left → s.nextHead = ⟨s.front.x - 1, s.front.y⟩) ∧
    (s.dir = Direction.Right → s.nextHead = ⟨s.front.x + 1, s.front.y⟩) := by
  refine ⟨?_, ?_, ?_, ?_, ?_, ?_, ?_⟩
  · simp [Snake.move]
  · simp [Snake.move]
  · intro grow
    cases grow with
    | false =>
      have hdrop : (s.move false).body = s.nextHead :: s.body.dropLast := by
        simp [Snake.move, List.dropLast_cons_of_ne_nil hb]
      rw [hdrop, List.headI_cons]
    | true => rfl
  · intro h; simp [Snake.nextHead, h]
  · intro h; simp [Snake.nextHead, h]
  · intro h; simp [Snake.nextHead, h]
  · intro h; simp [Snake.nextHead, h]

/-- C4 witness: the length and head properties evaluated on a concrete
length-3 snake heading Right. -/
theorem snake_move_nextHead_spec_witness :
    (wallSnake.move false).body.length = wallSnake.body.length ∧
    (wallSnake.move true).body.length = wallSnake.body.length + 1 ∧
    (wallSnake.move false).body.headI = wallSnake.nextHead ∧
    wallSnake.nextHead = ⟨wallSnake.front.x + 1, wallSnake.front.y⟩ := by
  have h := snake_move_nextHead_spec wallSnake (by decide)
  exact ⟨h.1, h.2.1, h.2.2.1 false, h.2.2.2.2.2.2 rfl⟩

/-- C5: `setDirection(d)` adopts `d` unless `d` is the exact opposite of
the current heading (Up↔Down, Left↔Right), in which case the whole state
is left unchanged; in either case the body is untouched. -/
theorem setDirection_guarded (s : Snake) (d : Direction) :
    (((s.dir = Direction.Up ∧ d = Direction.Down) ∨
      (s.dir = Direction.Down ∧ d = Direction.Up) ∨
      (s.dir = Direction.Left ∧ d = Direction.Right) ∨
      (s.dir = Direction.Right ∧ d = Direction.Left)) →
        s.setDirection d = s) ∧
    (¬((s.dir = Direction.Up ∧ d = Direction.Down) ∨
       (s.dir = Direction.Down ∧ d = Direction.Up) ∨
       (s.dir = Direction.Left ∧ d = Direction.Right) ∨
       (s.dir = Direction.Right ∧ d = Direction.Left)) →
        (s.setDirection d).dir = d) ∧
    (s.setDirection d).body = s.body := by
  refine ⟨?_, ?_, ?_⟩
  · intro hopp
    rw [Snake.setDirection, if_pos hopp]
  · intro hopp
    rw [Snake.setDirection, if_neg hopp]
  · rw [Snake.setDirection]
    split <;> rfl

/-- C5 witness: a Right-heading snake ignores a Left request and adopts an
Up request, keeping its body both times. -/
theorem setDirection_guarded_witness :
    wallSnake.setDirection Direction.Left = wallSnake ∧
    (wallSnake.setDirection Direction.Up).dir = Direction.Up ∧
    (wallSnake.setDirection Direction.Up).body = wallSnake.body := by
  refine ⟨?_, ?_, ?_⟩
  · exact (setDirection_guarded wallSnake Direction.Left).1 (by decide)
  · exact (setDirection_guarded wallSnake Direction.Up).2.1 (by decide)
  · exact (setDirection_guarded wallSnake Direction.Up).2.2

/-- C9: `Snake::hitsSelf` and `Snake::contains` compute the same
predicate — membership of the point in the current body. -/
theorem hitsSelf_eq_contains :
    ∀ (s : Snake) (p : Point),
      s.hitsSelf p = s.contains p ∧ (s.contains p = true ↔ p ∈ s.body) := by
  intro s p
  exact ⟨rfl, Snake.contains_iff_mem s p⟩

/-- C6: self-collision is evaluated against the full pre-move body —
`hitsSelf(next)` holds exactly when `next` equals any current segment,
including the tail; hence a tick whose next head is the current tail cell
ends the run even though the move would vacate that cell. -/
theorem hitsSelf_full_body_including_tail :
    (∀ (s : Snake) (p : Point), s.hitsSelf p = true ↔ p ∈ s.body) ∧
    (∀ (g : Game) (samp : Nat → Nat × Nat) (t : Point),
        g.snake.body.getLast? = some t →
        g.snake.nextHead = t →
        wallHit g.width g.height g.snake.nextHead = false →
        (g.update samp).over = true) := by
  constructor
  · exact Snake.hitsSelf_iff_mem
  · intro g samp t hlast hnext hw
    have hmem : t ∈ g.snake.body := List.mem_of_getLast?_eq_some hlast
    have hs : g.snake.hitsSelf g.snake.nextHead = true := by
      rw [Snake.hitsSelf_iff_mem, hnext]; exact hmem
    rw [Game.update, if_neg (by simp [hw]), if_pos hs]
    rfl

/-- C6 witness: a length-4 snake curled into a square steps onto its own
tail cell and the run ends. -/
theorem hitsSelf_full_body_including_tail_witness :
    (loopGame.update cexSamp).over = true :=
  hitsSelf_full_body_including_tail.2 loopGame cexSamp ⟨1, 2⟩
    (by decide) (by decide) (by decide)

/-- C1: the wall guard of `update` fires exactly on the code's condition
of `next` lying on or outside the outer ring, written with `<=0` and
`>=width-1` / `>=height-1`; for a state whose head is strictly inside the
wall ring (so the prospective head is at most one step outside the
interior) this is equivalent to the spec's testable form — `next.x` equal
to 0 or `width-1`, or `next.y` equal to 0 or `height-1`; when the guard
fires the tick sets `over`, and when neither the wall guard nor the self
check fires the tick leaves `over` as it was. -/
theorem update_wall_check_characterization (g : Game) (samp : Nat → Nat × Nat)
    (_hb : g.snake.body ≠ [])
    (hx1 : 1 ≤ g.snake.front.x) (hx2 : g.snake.front.x ≤ g.width - 2)
    (hy1 : 1 ≤ g.snake.front.y) (hy2 : g.snake.front.y ≤ g.height - 2) :
    (wallHit g.width g.height g.snake.nextHead = true ↔
        (g.snake.nextHead.x ≤ 0 ∨ g.width - 1 ≤ g.snake.nextHead.x ∨
         g.snake.nextHead.y ≤ 0 ∨ g.height - 1 ≤ g.snake.nextHead.y)) ∧
    (wallHit g.width g.height g.snake.nextHead = true ↔
        (g.snake.nextHead.x = 0 ∨ g.snake.nextHead.x = g.width - 1 ∨
         g.snake.nextHead.y = 0 ∨ g.snake.nextHead.y = g.height - 1)) ∧
    (wallHit g.width g.height g.snake.nextHead = true →
        (g.update samp).over = true) ∧
    (wallHit g.width g.height g.snake.nextHead = false →
        g.snake.hitsSelf g.snake.nextHead = false →
        (g.update samp).over = g.over) := by
  refine ⟨?_, ?_, ?_, ?_⟩
  · rw [wallHit, decide_eq_true_eq]
  · have hnear := Snake.nextHead_near_front g.snake
    rw [wallHit, decide_eq_true_eq]
    rcases hnear with ⟨hx, hy⟩ | ⟨hy, hx⟩ <;> omega
  · intro hw
    rw [Game.update, if_pos hw]
    rfl
  · intro hw hs
    rw [Game.update, if_neg (by simp [hw]), if_neg (by simp [hs])]
    split <;> rfl

/-- C1 witness: on the 6×5 board, a tick into the right wall sets `over`,
and an interior tick that also misses the body leaves `over` untouched;
the testable boundary form agrees with the guard on both. -/
theorem update_wall_check_characterization_witness :
    (wallGame.update cexSamp).over = true ∧
    (cexGame.update cexSamp).over = cexGame.over ∧
    (wallHit wallGame.width wallGame.height wallGame.snake.nextHead = true ↔
        (wallGame.snake.nextHead.x = 0 ∨
         wallGame.snake.nextHead.x = wallGame.width - 1 ∨
         wallGame.snake.nextHead.y = 0 ∨
         wallGame.snake.nextHead.y = wallGame.height - 1)) := by
  refine ⟨?_, ?_, ?_⟩
  · exact (update_wall_check_characterization wallGame cexSamp (by decide)
      (by decide) (by decide) (by decide) (by decide)).2.2.1 (by decide)
  · exact (update_wall_check_characterization cexGame cexSamp (by decide)
      (by decide) (by decide) (by decide) (by decide)).2.2.2
      (by decide) (by decide)
  · exact (update_wall_check_characterization wallGame cexSamp (by decide)
      (by decide) (by decide) (by decide) (by decide)).2.1

/-- C2: whenever a tick ends the run — by the wall guard or the self
check — it sets `over` and commits nothing: snake (body and heading),
fruit position, score, and (in the richer variant) high score are exactly
as before; this holds in both `Game::update` variants. -/
theorem update_collision_commits_nothing :
    (∀ (g : Game) (samp : Nat → Nat × Nat),
        (wallHit g.width g.height g.snake.nextHead = true ∨
         g.snake.hitsSelf g.snake.nextHead = true) →
        (g.update samp).over = true ∧
        (g.update samp).snake = g.snake ∧
        (g.update samp).fruit.pos = g.fruit.pos ∧
        (g.update samp).score = g.score ∧
        (g.update samp).highScore = g.highScore) ∧
    (∀ (g : GameC) (samp : Nat → Nat × Nat),
        (wallHit g.width g.height g.snake.nextHead = true ∨
         g.snake.hitsSelf g.snake.nextHead = true) →
        (g.update samp).over = true ∧
        (g.update samp).snake = g.snake ∧
        (g.update samp).fruit.pos = g.fruit.pos ∧
        (g.update samp).score = g.score) := by
  constructor
  · intro g samp hcol
    by_cases hw : wallHit g.width g.height g.snake.nextHead = true
    · rw [Game.update, if_pos hw]
      exact ⟨rfl, rfl, rfl, rfl, rfl⟩
    · have hs : g.snake.hitsSelf g.snake.nextHead = true := by
        rcases hcol with h | h
        · exact absurd h hw
        · exact h
      rw [Game.update, if_neg hw, if_pos hs]
      exact ⟨rfl, rfl, rfl, rfl, rfl⟩
  · intro g samp hcol
    by_cases hw : wallHit g.width g.height g.snake.nextHead = true
    · rw [GameC.update, if_pos hw]
      exact ⟨rfl, rfl, rfl, rfl⟩
    · have hs : g.snake.hitsSelf g.snake.nextHead = true := by
        rcases hcol with h | h
        · exact absurd h hw
        · exact h
      rw [GameC.update, if_neg hw, if_pos hs]
      exact ⟨rfl, rfl, rfl, rfl⟩

/-- C2 witness: the snake one step from the right wall — in both
variants, one tick sets `over` and leaves body, fruit and score alone. -/
theorem update_collision_commits_nothing_witness :
    ((wallGame.update cexSamp).over = true ∧
     (wallGame.update cexSamp).snake = wallGame.snake ∧
     (wallGame.update cexSamp).score = wallGame.score) ∧
    ((wallGameC.update cexSamp).over = true ∧
     (wallGameC.update cexSamp).snake = wallGameC.snake ∧
     (wallGameC.update cexSamp).score = wallGameC.score) := by
  constructor
  · have h := update_collision_commits_nothing.1 wallGame cexSamp
      (Or.inl (by decide))
    exact ⟨h.1, h.2.1, h.2.2.2.1⟩
  · have h := update_collision_commits_nothing.2 wallGameC cexSamp
      (Or.inl (by decide))
    exact ⟨h.1, h.2.1, h.2.2.2⟩

theorem Game.update_fruit_pos_fallback (g : Game) (samp : Nat → Nat × Nat)
    (hw : wallHit g.width g.height g.snake.nextHead = false)
    (hs : g.snake.hitsSelf g.snake.nextHead = false)
    (hf : g.snake.nextHead = g.fruit.pos)
    (hall : ∀ j, j < 1000 →
      (g.snake.contains (sampleCand g.fruit.width g.fruit.height samp j) ||
        decide (sampleCand g.fruit.width g.fruit.height samp j =
          g.snake.nextHead)) = true) :
    (g.update samp).fruit.pos = ⟨1, 1⟩ := by
  rw [Game.update, if_neg (by simp [hw]), if_neg (by simp [hs]), if_pos hf]
  show (g.fruit.respawn
    (fun p => g.snake.contains p || decide (p = g.snake.nextHead)) samp).pos =
    ⟨1, 1⟩
  show respawnLoop
    (fun p => g.snake.contains p || decide (p = g.snake.nextHead))
    g.fruit.width g.fruit.height samp 0 1000 = ⟨1, 1⟩
  exact respawnLoop_all_occ _ g.fruit.width g.fruit.height samp 1000 0
    (fun j hj => by simpa using hall j hj)

/-- C3 counterexample: a non-colliding fruit tick on which the claimed
exclusion fails. The snake of `cexGame` lands on the fruit, the reward is
paid, but the sample stream offers only the already-occupied cell `(1,1)`
for all 1000 attempts, so respawn falls back to `(1,1)` — a cell of the
post-move snake body. -/
theorem update_fruit_exclusion_counterexample :
    wallHit cexGame.width cexGame.height cexGame.snake.nextHead = false ∧
    cexGame.snake.hitsSelf cexGame.snake.nextHead = false ∧
    cexGame.snake.nextHead = cexGame.fruit.pos ∧
    (cexGame.update cexSamp).score = cexGame.score + 10 ∧
    (cexGame.update cexSamp).fruit.pos = ⟨1, 1⟩ ∧
    (cexGame.snake.move true).contains ⟨1, 1⟩ = true := by
  have hres : (cexGame.update cexSamp).fruit.pos = ⟨1, 1⟩ := by
    apply Game.update_fruit_pos_fallback cexGame cexSamp
      (by decide) (by decide) (by decide)
    intro j hj
    rfl
  refine ⟨rfl, rfl, rfl, ?_, hres, rfl⟩
  rw [Game.update, if_neg (by decide), if_neg (by decide), if_pos (by decide)]

/-- C3 (amended): on a non-colliding tick that lands on the fruit, the
score rises by the fixed reward exactly once (10 in the richer variant, 1
in the console one), the high score is updated exactly when exceeded, the
occupancy predicate given to respawn is extensionally the membership test
of the post-move body (new head included), and — provided at least one of
the 1000 sampled candidates is unoccupied — the new fruit position
excludes every cell of the post-move body; when the next head is not the
fruit, score, high score and fruit are unchanged. -/
theorem update_fruit_tick_amended :
    (∀ (g : Game) (samp : Nat → Nat × Nat),
        wallHit g.width g.height g.snake.nextHead = false →
        g.snake.hitsSelf g.snake.nextHead = false →
        ((g.snake.nextHead = g.fruit.pos →
            (g.update samp).score = g.score + 10 ∧
            (g.score + 10 > g.highScore →
              (g.update samp).highScore = g.score + 10) ∧
            (¬(g.score + 10 > g.highScore) →
              (g.update samp).highScore = g.highScore) ∧
            (∀ p : Point,
              (g.snake.contains p || decide (p = g.snake.nextHead)) =
                (g.snake.move true).contains p) ∧
            ((∃ i, i < 1000 ∧
                (g.snake.move true).contains
                  (sampleCand g.fruit.width g.fruit.height samp i) = false) →
              (g.snake.move true).contains
                ((g.update samp).fruit.pos) = false)) ∧
         (g.snake.nextHead ≠ g.fruit.pos →
            (g.update samp).score = g.score ∧
            (g.update samp).highScore = g.highScore ∧
            (g.update samp).fruit.pos = g.fruit.pos))) ∧
    (∀ (g : GameC) (samp : Nat → Nat × Nat),
        wallHit g.width g.height g.snake.nextHead = false →
        g.snake.hitsSelf g.snake.nextHead = false →
        ((g.snake.nextHead = g.fruit.pos →
            (g.update samp).score = g.score + 1 ∧
            ((∃ i, i < 1000 ∧
                (g.snake.move true).contains
                  (sampleCand g.fruit.width g.fruit.height samp i) = false) →
              (g.snake.move true).contains
                ((g.update samp).fruit.pos) = false)) ∧
         (g.snake.nextHead ≠ g.fruit.pos →
            (g.update samp).score = g.score ∧
            (g.update samp).fruit.pos = g.fruit.pos))) := by
  constructor
  · intro g samp hw hs
    constructor
    · intro hf
      refine ⟨?_, ?_, ?_, ?_, ?_⟩
      · rw [Game.update, if_neg (by simp [hw]), if_neg (by simp [hs]),
          if_pos hf]
      · intro hgt
        rw [Game.update, if_neg (by simp [hw]), if_neg (by simp [hs]),
          if_pos hf]
        simp only [if_pos hgt]
      · intro hgt
        rw [Game.update, if_neg (by simp [hw]), if_neg (by simp [hs]),
          if_pos hf]
        simp only [if_neg hgt]
      · intro p
        exact Snake.contains_move_true g.snake p
      · intro hex
        obtain ⟨i, hi, hfree⟩ := hex
        rw [Game.update, if_neg (by simp [hw]), if_neg (by simp [hs]),
          if_pos hf]
        have hpos : (g.fruit.respawn
            (fun p => g.snake.contains p ||
              decide (p = g.snake.nextHead)) samp).pos =
            respawnLoop
              (fun p => g.snake.contains p ||
                decide (p = g.snake.nextHead))
              g.fruit.width g.fruit.height samp 0 1000 := rfl
        rw [hpos, ← Snake.contains_move_true]
        exact respawnLoop_not_occ
          (fun p => g.snake.contains p || decide (p = g.snake.nextHead))
          g.fruit.width g.fruit.height samp 1000 0
          ⟨i, hi, by
            simp only [Nat.zero_add, Snake.contains_move_true]
            exact hfree⟩
    · intro hf
      rw [Game.update, if_neg (by simp [hw]), if_neg (by simp [hs]),
        if_neg hf]
      exact ⟨rfl, rfl, rfl⟩
  · intro g samp hw hs
    constructor
    · intro hf
      constructor
      · rw [GameC.update, if_neg (by simp [hw]), if_neg (by simp [hs]),
          if_pos hf]
      · intro hex
        obtain ⟨i, hi, hfree⟩ := hex
        rw [GameC.update, if_neg (by simp [hw]), if_neg (by simp [hs]),
          if_pos hf]
        have hpos : (g.fruit.respawn
            (fun p => (g.snake.move true).contains p) samp).pos =
            respawnLoop (fun p => (g.snake.move true).contains p)
              g.fruit.width g.fruit.height samp 0 1000 := rfl
        rw [hpos]
        exact respawnLoop_not_occ
          (fun p => (g.snake.move true).contains p)
          g.fruit.width g.fruit.height samp 1000 0
          ⟨i, hi, by
            simp only [Nat.zero_add]
            exact hfree⟩
    · intro hf
      rw [GameC.update, if_neg (by simp [hw]), if_neg (by simp [hs]),
        if_neg hf]
      exact ⟨rfl, rfl⟩

/-- C3 witness: on `fruitGame` the landing tick pays the reward of 10 and
the first sampled candidate `(3,3)` is free, so the respawned fruit
avoids the whole post-move body. -/
theorem update_fruit_tick_amended_witness :
    (fruitGame.update freeSamp).score = fruitGame.score + 10 ∧
    (fruitGame.snake.move true).contains
      ((fruitGame.update freeSamp).fruit.pos) = false := by
  have h := (update_fruit_tick_amended.1 fruitGame freeSamp
    (by decide) (by decide)).1 (by decide)
  exact ⟨h.1, h.2.2.2.2 ⟨0, by decide, by decide⟩⟩

theorem Fruit.respawn_pos_fallback (f : Fruit) (occ : Point → Bool)
    (samp : Nat → Nat × Nat)
    (hall : ∀ j, j < 1000 → occ (sampleCand f.width f.height samp j) = true) :
    (f.respawn occ samp).pos = ⟨1, 1⟩ := by
  show respawnLoop occ f.width f.height samp 0 1000 = ⟨1, 1⟩
  exact respawnLoop_all_occ occ f.width f.height samp 1000 0
    (fun j hj => by simpa using hall j hj)

/-- C7 counterexample: a board with free interior cells on which respawn
still returns an occupied cell. On the 4×4 board only `(1,1)` is
occupied — `(2,2)` is a free interior cell — yet a sample stream that
offers `(1,1)` in all 1000 attempts makes respawn fall back to the
occupied `(1,1)`, so the claimed postcondition "at least one free
interior cell implies the result is unoccupied" fails on the code. -/
theorem respawn_free_cell_counterexample :
    cexOcc ⟨2, 2⟩ = false ∧
    (1 ≤ (2 : Int) ∧ (2 : Int) ≤ 4 - 2) ∧
    ((Fruit.init 4 4).respawn cexOcc cexSamp).pos = ⟨1, 1⟩ ∧
    cexOcc (((Fruit.init 4 4).respawn cexOcc cexSamp).pos) = true := by
  have hres : ((Fruit.init 4 4).respawn cexOcc cexSamp).pos = ⟨1, 1⟩ :=
    Fruit.respawn_pos_fallback (Fruit.init 4 4) cexOcc cexSamp
      (fun j hj => rfl)
  refine ⟨rfl, by decide, hres, ?_⟩
  rw [hres]
  rfl

/-- C7 (amended): for every occupancy predicate, respawn terminates (it
is a total function of its bounded retry loop), every sampled candidate
lies strictly inside the wall ring when the bounds are at least 3, the
result is unoccupied whenever at least one of the 1000 sampled candidates
is unoccupied (in particular whenever the sampler hits a free interior
cell — but a free cell alone does not force this), and when every sampled
candidate is occupied (in particular with zero free interior cells) the
result is the fixed fallback cell `(1,1)` even if occupied. -/
theorem respawn_amended (f : Fruit) (occ : Point → Bool)
    (samp : Nat → Nat × Nat) (hw : 3 ≤ f.width) (hh : 3 ≤ f.height) :
    (∀ i : Nat,
        1 ≤ (sampleCand f.width f.height samp i).x ∧
        (sampleCand f.width f.height samp i).x ≤ f.width - 2 ∧
        1 ≤ (sampleCand f.width f.height samp i).y ∧
        (sampleCand f.width f.height samp i).y ≤ f.height - 2) ∧
    ((∃ i, i < 1000 ∧ occ (sampleCand f.width f.height samp i) = false) →
        occ ((f.respawn occ samp).pos) = false) ∧
    ((∀ i, i < 1000 → occ (sampleCand f.width f.height samp i) = true) →
        (f.respawn occ samp).pos = ⟨1, 1⟩) := by
  refine ⟨fun i => sampleCand_interior f.width f.height samp i hw hh, ?_, ?_⟩
  · intro hex
    obtain ⟨i, hi, hfree⟩ := hex
    show occ (respawnLoop occ f.width f.height samp 0 1000) = false
    exact respawnLoop_not_occ occ f.width f.height samp 1000 0
      ⟨i, hi, by simpa using hfree⟩
  · intro hall
    show respawnLoop occ f.width f.height samp 0 1000 = ⟨1, 1⟩
    exact respawnLoop_all_occ occ f.width f.height samp 1000 0
      (fun j hj => by simpa using hall j hj)

/-- C7 witness: on the 6×5 board with only `(1,1)` occupied, the stream
offering `(3,3)` first makes respawn return an unoccupied cell; the first
candidate is strictly interior. -/
theorem respawn_amended_witness :
    (1 ≤ (sampleCand (Fruit.init 6 5).width (Fruit.init 6 5).height
        freeSamp 0).x ∧
      (sampleCand (Fruit.init 6 5).width (Fruit.init 6 5).height
        freeSamp 0).x ≤ (Fruit.init 6 5).width - 2 ∧
      1 ≤ (sampleCand (Fruit.init 6 5).width (Fruit.init 6 5).height
        freeSamp 0).y ∧
      (sampleCand (Fruit.init 6 5).width (Fruit.init 6 5).height
        freeSamp 0).y ≤ (Fruit.init 6 5).height - 2) ∧
    cexOcc (((Fruit.init 6 5).respawn cexOcc freeSamp).pos) = false := by
  have h := respawn_amended (Fruit.init 6 5) cexOcc freeSamp
    (by decide) (by decide)
  exact ⟨h.1 0, h.2.1 ⟨0, by decide, by decide⟩⟩

/-- C8: across any sequence of updates and resets within one process the
high score never decreases; reset zeroes the score, clears the over,
pause and dialog flags, reinitializes the snake, and leaves the high
score untouched. -/
theorem highScore_monotone_across_ops :
    (∀ (g : Game) (ops : List GOp),
        g.highScore ≤ (List.foldl GOp.apply g ops).highScore) ∧
    (∀ (g : Game) (samp : Nat → Nat × Nat),
        (g.reset samp).highScore = g.highScore ∧
        (g.reset samp).score = 0 ∧
        (g.reset samp).over = false ∧
        (g.reset samp).paused = false ∧
        (g.reset samp).dialogOpen = false ∧
        (g.reset samp).dialogType = DialogType.None ∧
        (g.reset samp).snake = Snake.init (g.width / 2) (g.height / 2) 3) ∧
    (∀ (g : Game) (samp : Nat → Nat × Nat),
        g.highScore ≤ (g.update samp).highScore) := by
  refine ⟨?_, ?_, ?_⟩
  · intro g ops
    exact foldl_highScore_le ops g
  · intro g samp
    exact ⟨rfl, rfl, rfl, rfl, rfl, rfl, rfl⟩
  · intro g samp
    exact g.update_highScore_le samp

/-- C10: a freshly constructed fruit sits at `(0,0)`, which is on the
wall ring (`x = 0`); the constructor records only the board bounds (the
RNG seeding has no bearing on the position); both the game constructor
and reset immediately respawn the fruit, after which — for boards at
least 3 wide and 3 tall — the fruit position is strictly interior again. -/
theorem fruit_initial_position_invariant :
    (∀ w h : Int, (Fruit.init w h).pos = ⟨0, 0⟩ ∧
        ((Fruit.init w h).pos.x = 0 ∨ (Fruit.init w h).pos.x = w - 1 ∨
         (Fruit.init w h).pos.y = 0 ∨ (Fruit.init w h).pos.y = h - 1) ∧
        (Fruit.init w h).width = w ∧ (Fruit.init w h).height = h) ∧
    (∀ (w h hs0 : Int) (samp : Nat → Nat × Nat), 3 ≤ w → 3 ≤ h →
        (Game.init w h hs0 samp).fruit =
          (Fruit.init w h).respawn
            (fun p => (Snake.init (w / 2) (h / 2) 3).contains p) samp ∧
        1 ≤ (Game.init w h hs0 samp).fruit.pos.x ∧
        (Game.init w h hs0 samp).fruit.pos.x ≤ w - 2 ∧
        1 ≤ (Game.init w h hs0 samp).fruit.pos.y ∧
        (Game.init w h hs0 samp).fruit.pos.y ≤ h - 2) ∧
    (∀ (g : Game) (samp : Nat → Nat × Nat), 3 ≤ g.width → 3 ≤ g.height →
        1 ≤ (g.reset samp).fruit.pos.x ∧
        (g.reset samp).fruit.pos.x ≤ g.width - 2 ∧
        1 ≤ (g.reset samp).fruit.pos.y ∧
        (g.reset samp).fruit.pos.y ≤ g.height - 2) := by
  refine ⟨?_, ?_, ?_⟩
  · intro w h
    exact ⟨rfl, Or.inl rfl, rfl, rfl⟩
  · intro w h hs0 samp hw hh
    refine ⟨rfl, ?_⟩
    exact respawnLoop_interior
      (fun p => (Snake.init (w / 2) (h / 2) 3).contains p)
      w h samp hw hh 1000 0
  · intro g samp hw hh
    exact respawnLoop_interior
      (fun p => (Snake.init (g.width / 2) (g.height / 2) 3).contains p)
      g.width g.height samp hw hh 1000 0

/-- C10 witness: on the 6×5 board the fresh fruit is at `(0,0)` and both
construction and reset leave it strictly interior. -/
theorem fruit_initial_position_invariant_witness :
    (Fruit.init 6 5).pos = ⟨0, 0⟩ ∧
    1 ≤ (Game.init 6 5 0 freeSamp).fruit.pos.x ∧
    1 ≤ (wallGame.reset freeSamp).fruit.pos.x := by
  have h := fruit_initial_position_invariant
  exact ⟨(h.1 6 5).1,
    (h.2.1 6 5 0 freeSamp (by decide) (by decide)).2.1,
    (h.2.2 wallGame freeSamp (by decide) (by decide)).1⟩

end ByteHebi
